import Mathlib

/-!
Shallow embedding of the message-transformation pipeline of the
`mqtt-llm` bridge (`src/mqtt_llm/mqtt_client.py` and
`src/mqtt_llm/bridge.py`), together with theorems settling the frozen
claims about it.

Strings are modelled as Lean `String` / `List Char` (Python `len` on
`str` counts code points, matching `String.length`).  Third-party
library calls (the `jsonpath_ng` query evaluator, the `re` regex
engine, `unicodedata.normalize`) are taken as explicit function
parameters of the embedded operations; everything else (the JSON
codec, `str.format`, `str.replace`, chunking, sanitisation) is
modelled directly from the source.
-/

namespace MqttLlm

/-- Python whitespace (the set accepted by `str.isspace`, `str.strip`,
`str.split` and matched by the regex class `\s` on `str` patterns):
ASCII whitespace, the C1 separators, and the Unicode space
characters. -/
def pyIsSpace (c : Char) : Bool :=
  c = ' ' || c = '\t' || c = '\n' || c = '\r' || c.toNat = 11 || c.toNat = 12 ||
  (28 ≤ c.toNat && c.toNat ≤ 31) || c.toNat = 133 || c.toNat = 160 ||
  c.toNat = 0x1680 || (0x2000 ≤ c.toNat && c.toNat ≤ 0x200a) ||
  c.toNat = 0x2028 || c.toNat = 0x2029 || c.toNat = 0x202f ||
  c.toNat = 0x205f || c.toNat = 0x3000

/-- Python `str.rstrip()` on a character list: drop trailing whitespace. -/
def rstrip (l : List Char) : List Char :=
  (l.reverse.dropWhile pyIsSpace).reverse

/-- Python `str.strip()` on a character list: drop leading and trailing
whitespace. -/
def pyStrip (l : List Char) : List Char :=
  rstrip (l.dropWhile pyIsSpace)

/-- The break characters preferred by `_chunk_text` when cutting a chunk:
the Python test `text[i] in " \n\t.!?;,"`. -/
def isBreakChar (c : Char) : Bool :=
  c = ' ' || c = '\n' || c = '\t' || c = '.' || c = '!' || c = '?' ||
  c = ';' || c = ','

/-- Model of the backward break-point search in `_chunk_text`
(`for i in range(end - 1, search_start - 1, -1)`): positions
`searchStart + k - 1`, …, `searchStart` are inspected from high to low;
the first break character found yields the cut point `i + 1`. -/
def breakScan (rem : List Char) (searchStart : Nat) : Nat → Option Nat
  | 0 => none
  | k + 1 =>
    if isBreakChar (rem.getD (searchStart + k) ' ') then
      some (searchStart + k + 1)
    else breakScan rem searchStart k

/-- Cut point for one iteration of the `_chunk_text` loop, relative to the
remaining text `rem` (so Python's `start` is `0` and `end` is `cs`):
`look_back = min(chunk_size // 5, 50)`, `search_start = end - look_back`,
and the window `[search_start, end - 1]` is scanned backwards for a break
character; with no hit the hard cut `end` is used. -/
def findBreak (rem : List Char) (cs : Nat) : Nat :=
  let lookBack := min (cs / 5) 50
  match breakScan rem (cs - lookBack) lookBack with
  | some bp => bp
  | none => cs

/-- The `while start < len(text)` loop of `_chunk_text`, recursing on the
text that remains past `start`.  The fuel argument bounds the number of
iterations; `fuel = text.length` suffices whenever `0 < cs`, because each
iteration consumes at least one character (for `cs = 0` the Python loop
does not terminate, which a total model cannot reproduce). -/
def chunkRec (cs : Nat) : Nat → List Char → List (List Char)
  | _, [] => []
  | 0, _ => []
  | fuel + 1, rem =>
    if rem.length ≤ cs then [rem]
    else
      let bp := findBreak rem cs
      rstrip (rem.take bp) :: chunkRec cs fuel (rem.drop bp)

/-- `MQTTClient._chunk_text(text, chunk_size)`: texts that fit are
returned whole (unfiltered); otherwise the loop's chunks are kept and
whitespace-only chunks are filtered out
(`[chunk for chunk in chunks if chunk.strip()]`). -/
def chunk_text (text : List Char) (cs : Nat) : List (List Char) :=
  if text.length ≤ cs then [text]
  else (chunkRec cs text.length text).filter (fun c => !(pyStrip c).isEmpty)

/-- The sequence of non-whitespace characters of a text; chunking may only
alter whitespace runs, never this sequence. -/
def nonWS (l : List Char) : List Char :=
  l.filter (fun c => !(pyIsSpace c))

/-- Values produced by Python's `json.loads`.  JSON numbers with a
fraction or exponent become Python floats; the model keeps their source
lexeme instead of an IEEE value (floating-point repr is out of scope),
integers are exact. -/
inductive Json where
  | null : Json
  | bool (b : Bool) : Json
  | int (n : Int) : Json
  | float (raw : String) : Json
  | str (s : String) : Json
  | arr (items : List Json) : Json
  | obj (fields : List (String × Json)) : Json

/-- JSON document whitespace skipped by the Python decoder. -/
def jsonWS (c : Char) : Bool :=
  c = ' ' || c = '\t' || c = '\n' || c = '\r'

/-- Drop leading JSON whitespace. -/
def skipWS (l : List Char) : List Char :=
  l.dropWhile jsonWS

/-- Value of a hexadecimal digit. -/
def hexVal (c : Char) : Option Nat :=
  if '0' ≤ c && c ≤ '9' then some (c.toNat - 48)
  else if 'a' ≤ c && c ≤ 'f' then some (c.toNat - 87)
  else if 'A' ≤ c && c ≤ 'F' then some (c.toNat - 55)
  else none

/-- Four hex digits, as in a `\uXXXX` escape. -/
def hex4 (l : List Char) : Option (Nat × List Char) :=
  match l with
  | a :: b :: c :: d :: rest =>
    match hexVal a, hexVal b, hexVal c, hexVal d with
    | some x, some y, some z, some w =>
      some (((x * 16 + y) * 16 + z) * 16 + w, rest)
    | _, _, _, _ => none
  | _ => none

/-- Body of a JSON string after the opening quote (Python decoder, strict
mode): unescaped control characters are rejected, the eight simple
escapes and `\uXXXX` (with surrogate-pair combination) are decoded.
A lone surrogate escape, which Python keeps as a surrogate code unit,
is mapped to U+FFFD because Lean characters are scalar values. -/
def parseJStr : Nat → List Char → Option (List Char × List Char)
  | 0, _ => none
  | fuel + 1, l =>
    match l with
    | [] => none
    | '"' :: rest => some ([], rest)
    | '\\' :: esc =>
      match esc with
      | '"' :: r => (parseJStr fuel r).map (fun p => ( '"' :: p.1, p.2))
      | '\\' :: r => (parseJStr fuel r).map (fun p => ( '\\' :: p.1, p.2))
      | '/' :: r => (parseJStr fuel r).map (fun p => ( '/' :: p.1, p.2))
      | 'b' :: r => (parseJStr fuel r).map (fun p => (Char.ofNat 8 :: p.1, p.2))
      | 'f' :: r => (parseJStr fuel r).map (fun p => (Char.ofNat 12 :: p.1, p.2))
      | 'n' :: r => (parseJStr fuel r).map (fun p => ( '\n' :: p.1, p.2))
      | 'r' :: r => (parseJStr fuel r).map (fun p => (Char.ofNat 13 :: p.1, p.2))
      | 't' :: r => (parseJStr fuel r).map (fun p => ( '\t' :: p.1, p.2))
      | 'u' :: r =>
        match hex4 r with
        | none => none
        | some (n, r2) =>
          if 0xd800 ≤ n && n ≤ 0xdbff then
            match r2 with
            | '\\' :: 'u' :: r3 =>
              match hex4 r3 with
              | some (m, r4) =>
                if 0xdc00 ≤ m && m ≤ 0xdfff then
                  (parseJStr fuel r4).map (fun p =>
                    (Char.ofNat (0x10000 + (n - 0xd800) * 0x400 + (m - 0xdc00)) :: p.1, p.2))
                else (parseJStr fuel r2).map (fun p => (Char.ofNat 0xfffd :: p.1, p.2))
              | none => (parseJStr fuel r2).map (fun p => (Char.ofNat 0xfffd :: p.1, p.2))
            | _ => (parseJStr fuel r2).map (fun p => (Char.ofNat 0xfffd :: p.1, p.2))
          else if 0xdc00 ≤ n && n ≤ 0xdfff then
            (parseJStr fuel r2).map (fun p => (Char.ofNat 0xfffd :: p.1, p.2))
          else (parseJStr fuel r2).map (fun p => (Char.ofNat n :: p.1, p.2))
      | _ => none
    | c :: rest =>
      if c.toNat < 32 then none
      else (parseJStr fuel rest).map (fun p => (c :: p.1, p.2))

/-- Decimal digit test. -/
def isDigit (c : Char) : Bool :=
  '0' ≤ c && c ≤ '9'

/-- Natural number denoted by a digit run. -/
def digitsToNat (l : List Char) : Nat :=
  l.foldl (fun n c => n * 10 + (c.toNat - 48)) 0

/-- A JSON number, per the Python decoder's number regex
`(-?(?:0|[1-9]\d*))(\.\d+)?([eE][-+]?\d+)?`: the longest match is taken
and the rest of the input is left for the caller (so trailing garbage
surfaces as an error in the surrounding context, as in Python).
Numbers with a fraction or exponent become `Json.float` carrying their
lexeme; plain integers become exact `Json.int`. -/
def parseNumber (l : List Char) : Option (Json × List Char) :=
  let (neg, l1) := match l with
    | '-' :: r => (true, r)
    | _ => (false, l)
  match l1 with
  | '0' :: r1 => parseNumberTail neg ['0'] r1
  | c :: r1 =>
    if '1' ≤ c && c ≤ '9' then
      parseNumberTail neg (c :: r1.takeWhile isDigit) (r1.dropWhile isDigit)
    else none
  | [] => none
where
  /-- Fraction and exponent parts, then assembly of the value. -/
  parseNumberTail (neg : Bool) (intPart : List Char) (l2 : List Char) :
      Option (Json × List Char) :=
    let (fracPart, l3) := match l2 with
      | '.' :: r =>
        let ds := r.takeWhile isDigit
        if ds.isEmpty then (([] : List Char), l2)
        else ('.' :: ds, r.dropWhile isDigit)
      | _ => ([], l2)
    let (expPart, l4) := match l3 with
      | e :: r =>
        if e = 'e' || e = 'E' then
          match r with
          | s :: r2 =>
            if s = '+' || s = '-' then
              let ds := r2.takeWhile isDigit
              if ds.isEmpty then (([] : List Char), l3)
              else (e :: s :: ds, r2.dropWhile isDigit)
            else
              let ds := r.takeWhile isDigit
              if ds.isEmpty then (([] : List Char), l3)
              else (e :: ds, r.dropWhile isDigit)
          | [] => ([], l3)
        else ([], l3)
      | [] => ([], l3)
    let signChars : List Char := if neg then ['-'] else []
    if fracPart.isEmpty && expPart.isEmpty then
      let mag : Int := Int.ofNat (digitsToNat intPart)
      some (Json.int (if neg then -mag else mag), l2)
    else
      some (Json.float (String.mk (signChars ++ intPart ++ fracPart ++ expPart)), l4)

/-- Insert a member into a decoded object: Python `dict` assignment —
an existing key keeps its position but gets the new value, otherwise the
member is appended. -/
def objInsert : List (String × Json) → String → Json → List (String × Json)
  | [], k, v => [(k, v)]
  | (k', v') :: rest, k, v =>
    if k' = k then (k', v) :: rest else (k', v') :: objInsert rest k v

mutual

/-- One JSON value (Python decoder): leading whitespace is skipped, then
objects, arrays, strings, the literals, the non-standard `NaN` /
`Infinity` / `-Infinity` constants (whose float value is kept as Python
prints it with `str`), or a number.  The fuel bounds the total number of
recursive parsing steps; `jsonParse` supplies more than the input length
can ever need. -/
def parseValue : Nat → List Char → Option (Json × List Char)
  | 0, _ => none
  | fuel + 1, l =>
    match skipWS l with
    | '{' :: rest =>
      match skipWS rest with
      | '}' :: r2 => some (Json.obj [], r2)
      | _ => parseMembers fuel [] rest
    | '[' :: rest =>
      match skipWS rest with
      | ']' :: r2 => some (Json.arr [], r2)
      | _ => parseItems fuel [] rest
    | '"' :: rest =>
      match parseJStr (rest.length + 1) rest with
      | some (s, r2) => some (Json.str (String.mk s), r2)
      | none => none
    | 't' :: 'r' :: 'u' :: 'e' :: r => some (Json.bool true, r)
    | 'f' :: 'a' :: 'l' :: 's' :: 'e' :: r => some (Json.bool false, r)
    | 'n' :: 'u' :: 'l' :: 'l' :: r => some (Json.null, r)
    | 'N' :: 'a' :: 'N' :: r => some (Json.float "nan", r)
    | 'I' :: 'n' :: 'f' :: 'i' :: 'n' :: 'i' :: 't' :: 'y' :: r =>
      some (Json.float "inf", r)
    | '-' :: 'I' :: 'n' :: 'f' :: 'i' :: 'n' :: 'i' :: 't' :: 'y' :: r =>
      some (Json.float "-inf", r)
    | l' => parseNumber l'

/-- Members of an object after `{` (first member not yet consumed). -/
def parseMembers : Nat → List (String × Json) → List Char → Option (Json × List Char)
  | 0, _, _ => none
  | fuel + 1, acc, l =>
    match skipWS l with
    | '"' :: rest =>
      match parseJStr (rest.length + 1) rest with
      | none => none
      | some (k, r2) =>
        match skipWS r2 with
        | ':' :: r3 =>
          match parseValue fuel r3 with
          | none => none
          | some (v, r4) =>
            let acc2 := objInsert acc (String.mk k) v
            match skipWS r4 with
            | ',' :: r5 => parseMembers fuel acc2 r5
            | '}' :: r5 => some (Json.obj acc2, r5)
            | _ => none
        | _ => none
    | _ => none

/-- Items of an array after `[` (first item not yet consumed). -/
def parseItems : Nat → List Json → List Char → Option (Json × List Char)
  | 0, _, _ => none
  | fuel + 1, acc, l =>
    match parseValue fuel l with
    | none => none
    | some (v, r) =>
      match skipWS r with
      | ',' :: r2 => parseItems fuel (acc ++ [v]) r2
      | ']' :: r2 => some (Json.arr (acc ++ [v]), r2)
      | _ => none

end

/-- Python `json.loads(payload)`: decode one document, then require only
whitespace to remain (`Extra data` otherwise).  `none` models
`json.JSONDecodeError`. -/
def jsonParse (s : String) : Option Json :=
  match parseValue (2 * s.length + 4) s.data with
  | some (v, rest) => if (skipWS rest).isEmpty then some v else none
  | none => none

/-- Lower-case hex digit character. -/
def hexDigit (n : Nat) : Char :=
  if n < 10 then Char.ofNat (48 + n) else Char.ofNat (87 + n)

/-- Four-character lower-case hex rendering of `n < 0x10000`. -/
def hex4Chars (n : Nat) : List Char :=
  [hexDigit (n / 4096 % 16), hexDigit (n / 256 % 16), hexDigit (n / 16 % 16),
    hexDigit (n % 16)]

/-- Escaping of one character inside a `json.dumps` string literal with
the default `ensure_ascii=True`: `"`, `\` and the five short escapes,
`\uXXXX` for other control and all non-ASCII characters (astral
characters as a surrogate pair), everything else verbatim. -/
def dumpsEscChar (c : Char) : List Char :=
  if c = '"' then ['\\', '"']
  else if c = '\\' then ['\\', '\\']
  else if c = '\n' then ['\\', 'n']
  else if c.toNat = 13 then ['\\', 'r']
  else if c = '\t' then ['\\', 't']
  else if c.toNat = 8 then ['\\', 'b']
  else if c.toNat = 12 then ['\\', 'f']
  else if c.toNat < 32 || c.toNat ≥ 127 then
    if c.toNat < 0x10000 then '\\' :: 'u' :: hex4Chars c.toNat
    else
      let v := c.toNat - 0x10000
      ('\\' :: 'u' :: hex4Chars (0xd800 + v / 0x400)) ++
        ('\\' :: 'u' :: hex4Chars (0xdc00 + v % 0x400))
  else [c]

/-- A `json.dumps` string literal. -/
def dumpsStr (s : String) : String :=
  String.mk ('"' :: (s.data.flatMap dumpsEscChar) ++ ['"'])

mutual

/-- Python `json.dumps(value)` with default separators (`", "` and
`": "`) and `ensure_ascii=True`.  Floats are rendered by their stored
lexeme (IEEE repr is out of scope for the model). -/
def jsonDumps : Json → String
  | Json.null => "null"
  | Json.bool true => "true"
  | Json.bool false => "false"
  | Json.int n => toString n
  | Json.float raw => raw
  | Json.str s => dumpsStr s
  | Json.arr items => "[" ++ jsonDumpsItems items ++ "]"
  | Json.obj fields => "\x7b" ++ jsonDumpsFields fields ++ "\x7d"

/-- Comma-separated array items in `json.dumps` form. -/
def jsonDumpsItems : List Json → String
  | [] => ""
  | [x] => jsonDumps x
  | x :: xs => jsonDumps x ++ ", " ++ jsonDumpsItems xs

/-- Comma-separated `"key": value` members in `json.dumps` form. -/
def jsonDumpsFields : List (String × Json) → String
  | [] => ""
  | [(k, v)] => dumpsStr k ++ ": " ++ jsonDumps v
  | (k, v) :: xs => dumpsStr k ++ ": " ++ jsonDumps v ++ ", " ++ jsonDumpsFields xs

end

/-- Python `repr` of a string: quotes with `'` (or `"` when the text
contains `'` but no `"`), escaping the backslash, the quote character,
and the common control characters.  The `\xXX` escaping of other exotic
characters is not modelled (no claim depends on it). -/
def pyReprStr (s : String) : String :=
  let sq : Char := Char.ofNat 39
  let q : Char := if s.data.contains sq && !(s.data.contains '"') then '"' else sq
  let esc : Char → List Char := fun c =>
    if c = '\\' then ['\\', '\\']
    else if c = q then ['\\', q]
    else if c = '\n' then ['\\', 'n']
    else if c.toNat = 13 then ['\\', 'r']
    else if c = '\t' then ['\\', 't']
    else [c]
  String.mk (q :: (s.data.flatMap esc) ++ [q])

mutual

/-- Python `repr` for values decoded from JSON (used inside `str` of
containers). -/
def pyRepr : Json → String
  | Json.null => "None"
  | Json.bool true => "True"
  | Json.bool false => "False"
  | Json.int n => toString n
  | Json.float raw => raw
  | Json.str s => pyReprStr s
  | Json.arr items => "[" ++ pyReprItems items ++ "]"
  | Json.obj fields => "\x7b" ++ pyReprFields fields ++ "\x7d"

/-- Comma-separated `repr` list items. -/
def pyReprItems : List Json → String
  | [] => ""
  | [x] => pyRepr x
  | x :: xs => pyRepr x ++ ", " ++ pyReprItems xs

/-- Comma-separated `repr` dict members. -/
def pyReprFields : List (String × Json) → String
  | [] => ""
  | [(k, v)] => pyReprStr k ++ ": " ++ pyRepr v
  | (k, v) :: xs => pyReprStr k ++ ": " ++ pyRepr v ++ ", " ++ pyReprFields xs

end

/-- Python `str(value)` for a value decoded from JSON, as applied by
`_extract_text_content` to `matches[0].value`: strings verbatim,
`None` / `True` / `False`, exact integers, floats by their stored
lexeme, containers via `repr` of their elements. -/
def pyStr : Json → String
  | Json.null => "None"
  | Json.bool true => "True"
  | Json.bool false => "False"
  | Json.int n => toString n
  | Json.float raw => raw
  | Json.str s => s
  | Json.arr items => pyRepr (Json.arr items)
  | Json.obj fields => pyRepr (Json.obj fields)

/-- Python `str.replace(pat, repl)` on character lists: scan left to
right, replacing non-overlapping occurrences.  (Python's behaviour for
an empty pattern — interleaving — is not modelled; the embedding only
replaces non-empty patterns.)  Fuel is the scan position bound; the
wrapper passes the text length. -/
def pyReplaceAux (pat repl : List Char) : Nat → List Char → List Char
  | 0, l => l
  | _ + 1, [] => []
  | fuel + 1, c :: rest =>
    if !pat.isEmpty && pat.isPrefixOf (c :: rest) then
      repl ++ pyReplaceAux pat repl fuel ((c :: rest).drop pat.length)
    else c :: pyReplaceAux pat repl fuel rest

/-- Python `str.replace` on strings. -/
def pyReplace (s pat repl : String) : String :=
  String.mk (pyReplaceAux pat.data repl.data s.length s.data)

/-- Python `str.format(response=value)` restricted to what the source
templates exercise: literal text, `{{` / `}}` brace escapes, and the
`{response}` replacement field.  Any other replacement field — unknown
name, empty (auto-numbered) field, conversion `!`, format spec `:`,
nested field, unterminated `{`, or a lone `}` — raises in Python
(`KeyError` / `IndexError` / `ValueError`) and is modelled as
`Except.error ()`.  (Fields that Python itself would accept, such as
`{response:spec}` or attribute access, are also modelled as errors;
no configuration in the claims exercises them.) -/
def pyFormatAux (v : String) : Nat → List Char → Except Unit (List Char)
  | 0, _ => Except.error ()
  | _ + 1, [] => Except.ok []
  | fuel + 1, '{' :: '{' :: rest => (pyFormatAux v fuel rest).map (fun s => '{' :: s)
  | fuel + 1, '{' :: rest =>
    let fld := rest.takeWhile (fun c => c ≠ '}' && c ≠ ':' && c ≠ '!' && c ≠ '{')
    match rest.drop fld.length with
    | '}' :: rest2 =>
      if fld = "response".data then
        (pyFormatAux v fuel rest2).map (fun s => v.data ++ s)
      else Except.error ()
    | _ => Except.error ()
  | fuel + 1, '}' :: '}' :: rest => (pyFormatAux v fuel rest).map (fun s => '}' :: s)
  | _ + 1, '}' :: _ => Except.error ()
  | fuel + 1, c :: rest => (pyFormatAux v fuel rest).map (fun s => c :: s)

/-- Python `template.format(response=value)`.  The fuel of the scanner
is the template length plus one, which every step strictly decreases
below. -/
def pyFormat (template : List Char) (v : String) : Except Unit String :=
  (pyFormatAux v (template.length + 1) template).map String.mk

mutual

/-- The `replace_placeholders` closure of `_format_response`: walk the
parsed template and replace the sentinel marker inside every string
value (dict keys are left untouched, exactly as in the source's dict
comprehension). -/
def replace_placeholders (v : String) : Json → Json
  | Json.str s => Json.str (pyReplace s "__RESPONSE_PLACEHOLDER__" v)
  | Json.arr items => Json.arr (rpItems v items)
  | Json.obj fields => Json.obj (rpFields v fields)
  | j => j

/-- `replace_placeholders` over list items. -/
def rpItems (v : String) : List Json → List Json
  | [] => []
  | x :: xs => replace_placeholders v x :: rpItems v xs

/-- `replace_placeholders` over dict values (keys unchanged). -/
def rpFields (v : String) : List (String × Json) → List (String × Json)
  | [] => []
  | (k, x) :: xs => (k, replace_placeholders v x) :: rpFields v xs

end

/-- Characters removed by the sanitizer's `emoji_pattern` — the union of
the ranges and singletons listed in `_sanitize_response`.  Substituting
`""` for every maximal run of such characters is the same as filtering
them all out. -/
def emojiChar (c : Char) : Bool :=
  let n := c.toNat
  (0x1f600 ≤ n && n ≤ 0x1f64f) || (0x1f300 ≤ n && n ≤ 0x1f5ff) ||
  (0x1f680 ≤ n && n ≤ 0x1f6ff) || (0x1f1e0 ≤ n && n ≤ 0x1f1ff) ||
  (0x2500 ≤ n && n ≤ 0x2bef) || (0x2702 ≤ n && n ≤ 0x27b0) ||
  (0x24c2 ≤ n && n ≤ 0x1f251) || (0x1f926 ≤ n && n ≤ 0x1f937) ||
  (0x10000 ≤ n && n ≤ 0x10ffff) || (0x2640 ≤ n && n ≤ 0x2642) ||
  (0x2600 ≤ n && n ≤ 0x2b55) || n = 0x200d || n = 0x23cf || n = 0x23e9 ||
  n = 0x231a || n = 0xfe0f || n = 0x3030

/-- One `re.sub` of the form `class+ -> " "`: every maximal run of
characters satisfying `p` becomes a single space (used for `\s+`,
`\n+`, `\r+`, `\t+`).  Fuel: the text length, each step consumes at
least one character. -/
def collapseRunsAux (p : Char → Bool) : Nat → List Char → List Char
  | 0, l => l
  | _ + 1, [] => []
  | fuel + 1, c :: rest =>
    if p c then ' ' :: collapseRunsAux p fuel (rest.dropWhile p)
    else c :: collapseRunsAux p fuel rest

/-- `re.sub(class+, " ", text)` wrapper. -/
def collapseRuns (p : Char → Bool) (l : List Char) : List Char :=
  collapseRunsAux p l.length l

/-- `re.sub(r"<[^>]*>", "", text)`: a `<` with a later `>` is removed
together with everything between them (newlines included, `[^>]`
matches them); a `<` with no closing `>` stays. -/
def removeTagsAux : Nat → List Char → List Char
  | 0, l => l
  | _ + 1, [] => []
  | fuel + 1, c :: rest =>
    if c = '<' then
      let inner := rest.takeWhile (fun x => x ≠ '>')
      match rest.drop inner.length with
      | '>' :: after => removeTagsAux fuel after
      | _ => c :: removeTagsAux fuel rest
    else c :: removeTagsAux fuel rest

/-- Tag-removal wrapper. -/
def removeTags (l : List Char) : List Char :=
  removeTagsAux l.length l

/-- The lazy search performed by `(.*?)close`: the shortest content not
containing a newline (`.` does not match `\n`) that is followed by the
closing delimiter; returns the content and the text after the
delimiter. -/
def findCloseAux (close : List Char) : List Char → Option (List Char × List Char)
  | [] => none
  | c :: rest =>
    if close.isPrefixOf (c :: rest) then some ([], (c :: rest).drop close.length)
    else if c = '\n' then none
    else
      match findCloseAux close rest with
      | some (content, after) => some (c :: content, after)
      | none => none

/-- One markdown-emphasis substitution `re.sub(opn(.*?)close, r"\1", …)`
(used for `**bold**`, `*italic*`, `_italic_` and backtick code spans):
at each position, a match replaces delimiters-plus-content by the bare
content and scanning resumes after the match; otherwise the character
is kept.  Fuel: text length (a match consumes at least the opening
delimiter). -/
def subDelimsAux (opn close : List Char) : Nat → List Char → List Char
  | 0, l => l
  | _ + 1, [] => []
  | fuel + 1, c :: rest =>
    if opn.isPrefixOf (c :: rest) then
      match findCloseAux close ((c :: rest).drop opn.length) with
      | some (content, after) => content ++ subDelimsAux opn close fuel after
      | none => c :: subDelimsAux opn close fuel rest
    else c :: subDelimsAux opn close fuel rest

/-- Markdown-emphasis substitution wrapper. -/
def subDelims (opn close l : List Char) : List Char :=
  subDelimsAux opn close l.length l

/-- `re.sub(r"#{1,6}\s*", "", text)`: up to six `#` and the following
whitespace run are removed; a longer `#` run is consumed six at a
time. -/
def subHeadersAux : Nat → List Char → List Char
  | 0, l => l
  | _ + 1, [] => []
  | fuel + 1, c :: rest =>
    if c = '#' then
      let hs := ((c :: rest).takeWhile (fun x => x = '#')).length
      let n := min hs 6
      subHeadersAux fuel (((c :: rest).drop n).dropWhile pyIsSpace)
    else c :: subHeadersAux fuel rest

/-- Header-marker removal wrapper. -/
def subHeaders (l : List Char) : List Char :=
  subHeadersAux l.length l

/-- `re.sub(r"\[(.*?)\]\(.*?\)", r"\1", text)`: a markdown link
`[text](url)` is replaced by its `text`; the two lazy groups stop at the
first `](` and the first following `)`, and neither may span a
newline. -/
def subLinksAux : Nat → List Char → List Char
  | 0, l => l
  | _ + 1, [] => []
  | fuel + 1, c :: rest =>
    if c = '[' then
      match findCloseAux [']', '('] rest with
      | some (content1, afterMid) =>
        match findCloseAux [')'] afterMid with
        | some (_, after2) => content1 ++ subLinksAux fuel after2
        | none => c :: subLinksAux fuel rest
      | none => c :: subLinksAux fuel rest
    else c :: subLinksAux fuel rest

/-- Link substitution wrapper. -/
def subLinks (l : List Char) : List Char :=
  subLinksAux l.length l

/-- Unicode category `Cc` for ASCII characters.  The source applies the
`unicodedata.category(char) != "Cc"` filter right after the
`encode("ascii", "ignore")` step, so only ASCII characters ever reach
it, where `Cc` is exactly the C0 controls and DEL. -/
def asciiCc (c : Char) : Bool :=
  c.toNat < 32 || c.toNat = 127

/-- Python `str.split()` (no separator): maximal non-whitespace words,
empties dropped. -/
def pySplitAux : Nat → List Char → List (List Char)
  | 0, _ => []
  | fuel + 1, l =>
    match l.dropWhile pyIsSpace with
    | [] => []
    | l2 =>
      let w := l2.takeWhile (fun c => !(pyIsSpace c))
      w :: pySplitAux fuel (l2.drop w.length)

/-- `str.split()` wrapper. -/
def pySplitWs (l : List Char) : List (List Char) :=
  pySplitAux (l.length + 1) l

/-- Python `" ".join(words)`. -/
def joinWords : List (List Char) → List Char
  | [] => []
  | [w] => w
  | w :: ws => w ++ ' ' :: joinWords ws

/-- The steps of `_sanitize_response` before the
`unicodedata.normalize("NFKD", …)` call, in source order: emoji
removal, the four whitespace-collapsing substitutions, tag removal,
the four emphasis substitutions, header markers, links. -/
def sanitize_pre (r : String) : String :=
  let t := r.data.filter (fun c => !(emojiChar c))
  let t := collapseRuns pyIsSpace t
  let t := collapseRuns (fun c => c = '\n') t
  let t := collapseRuns (fun c => c.toNat = 13) t
  let t := collapseRuns (fun c => c = '\t') t
  let t := removeTags t
  let t := subDelims ['*', '*'] ['*', '*'] t
  let t := subDelims ['*'] ['*'] t
  let t := subDelims ['_'] ['_'] t
  let t := subDelims [Char.ofNat 96] [Char.ofNat 96] t
  let t := subHeaders t
  let t := subLinks t
  String.mk t

/-- The steps of `_sanitize_response` after the NFKD normalization:
`encode("ascii", "ignore")`, the `Cc` filter, `" ".join(text.split())`,
and the final `strip()`. -/
def sanitize_post (s : String) : String :=
  let t := s.data.filter (fun c => c.toNat < 128)
  let t := t.filter (fun c => !(asciiCc c))
  let t := joinWords (pySplitWs t)
  String.mk (pyStrip t)

/-- `MQTTClient._sanitize_response(response)`: the identity when the
`sanitize_response` flag is off, otherwise the pipeline of pure
substitutions around the `unicodedata.normalize("NFKD", …)` library
call, which is a parameter `nfkd` of the model.  The source wraps the
body in a `try` that returns the original text on error; the model's
steps are total, so that branch has no counterpart. -/
def sanitize_response (nfkd : String → String) (enabled : Bool) (response : String) :
    String :=
  if !enabled then response
  else sanitize_post (nfkd (sanitize_pre response))

/-- The configured publish template: either a plain string or (from a
dict-valued configuration) a JSON object. -/
inductive PublishTemplate where
  | str (s : String) : PublishTemplate
  | dict (fields : List (String × Json)) : PublishTemplate

/-- The slice of `MQTTConfig` consumed by the message pipeline
(`subscribe_path`, `trigger_pattern`, `publish_template`,
`sanitize_response`, `message_max_length`; connection settings are out
of scope). -/
structure MQTTConfig where
  subscribe_path : String
  trigger_pattern : String
  publish_template : PublishTemplate
  sanitize : Bool
  message_max_length : Option Nat

/-- `MQTTClient._format_response(response)` up to its final `except`
handler, as an `Except`: the sanitized response is substituted into the
configured template.  A string template whose stripped form is
brace-delimited is first tried as JSON with the sentinel-marker trick
(`JSONDecodeError` falls through to the plain `str.format` path); a
dict template is serialized with `json.dumps` and then passed to
`str.format`.  `Except.error ()` models an exception reaching the
outer `except` handler. -/
def format_response_core (cfg : MQTTConfig) (nfkd : String → String)
    (response : String) : Except Unit String :=
  let sanitized := sanitize_response nfkd cfg.sanitize response
  match cfg.publish_template with
  | PublishTemplate.str template =>
    let stripped := pyStrip template.data
    if stripped.head? = some '{' && stripped.getLast? = some '}' then
      let temp := pyReplace template "\x7bresponse\x7d" "__RESPONSE_PLACEHOLDER__"
      match jsonParse temp with
      | some j => Except.ok (jsonDumps (replace_placeholders sanitized j))
      | none => pyFormat template.data sanitized
    else pyFormat template.data sanitized
  | PublishTemplate.dict fields =>
    pyFormat (jsonDumps (Json.obj fields)).data sanitized

/-- `MQTTClient._format_response(response)`: the `except` handler
returns the incoming `response` unchanged when formatting raises. -/
def format_response (cfg : MQTTConfig) (nfkd : String → String)
    (response : String) : String :=
  match format_response_core cfg nfkd response with
  | Except.ok s => s
  | Except.error _ => response

/-- Observable effects of the publish side: a call to
`client.publish(...)` with its payload, or an error logged. -/
inductive PubEvent where
  | publishMsg (payload : String) : PubEvent
  | logError : PubEvent
deriving DecidableEq

/-- The `for i, chunk in enumerate(chunks, 1)` loop of
`_publish_chunked_response`: each chunk gets its `"i/total: "` label,
is formatted, and published; a failed publish (`pubOk i` false) adds an
error log.  The model assumes the client object stays present, as it is
for the whole loop when `publish_response` entered with a connected
client. -/
def publish_chunks_loop (pubOk : Nat → Bool) (cfg : MQTTConfig)
    (nfkd : String → String) (total : Nat) : Nat → List (List Char) → List PubEvent
  | _, [] => []
  | i, c :: rest =>
    let labeled := toString i ++ "/" ++ toString total ++ ": " ++ String.mk c
    PubEvent.publishMsg (format_response cfg nfkd labeled) ::
      ((if pubOk i then [] else [PubEvent.logError]) ++
        publish_chunks_loop pubOk cfg nfkd total (i + 1) rest)

/-- `MQTTClient._publish_chunked_response(response)`: a missing or zero
`message_max_length` raises `ValueError` (`Except.error ()`); a budget
`message_max_length - 10` that is not positive logs one error and emits
nothing; otherwise the raw response is chunked with that budget and the
chunks are published in order. -/
def publish_chunked_response (pubOk : Nat → Bool) (cfg : MQTTConfig)
    (nfkd : String → String) (response : String) : Except Unit (List PubEvent) :=
  match cfg.message_max_length with
  | none => Except.error ()
  | some m =>
    if m = 0 then Except.error ()
    else if (m : Int) - 10 ≤ 0 then Except.ok [PubEvent.logError]
    else
      let chunks := chunk_text response.data (m - 10)
      Except.ok (publish_chunks_loop pubOk cfg nfkd chunks.length 1 chunks)

/-- `MQTTClient.publish_response(response)`: an unconnected client only
logs an error; with a configured `message_max_length` and a longer raw
response the chunked path runs (its `ValueError` is swallowed by this
method's own `except` into an error log); otherwise the formatted
response is published once. -/
def publish_response (pubOk : Nat → Bool) (cfg : MQTTConfig)
    (nfkd : String → String) (connected : Bool) (response : String) :
    List PubEvent :=
  if !connected then [PubEvent.logError]
  else
    let goChunk := match cfg.message_max_length with
      | some m => decide (m ≠ 0) && decide (response.length > m)
      | none => false
    if goChunk then
      match publish_chunked_response pubOk cfg nfkd response with
      | Except.ok evs => evs
      | Except.error _ => [PubEvent.logError]
    else
      PubEvent.publishMsg (format_response cfg nfkd response) ::
        (if pubOk 1 then [] else [PubEvent.logError])

/-- `MQTTClient._should_trigger_ai(message)`.  The `re.search` library
call is a parameter: `Except.ok b` is a completed search with `b`
telling whether a match was found, `Except.error ()` is the `re.error`
raised by an invalid pattern, which the source catches and converts to
`True` (fail-open). -/
def should_trigger_ai (search : String → String → Except Unit Bool)
    (pattern message : String) : Bool :=
  match search pattern message with
  | Except.ok b => b
  | Except.error _ => true

/-- `MQTTClient._extract_text_content(payload)`.  The `jsonpath_ng`
library is a parameter: `pathFind` is `some find` when
`parse(subscribe_path)` succeeds, with `find` returning the ordered
match values, and `none` when it raises (the outer `except` then
returns `None`).  A payload that is not JSON falls back to the verbatim
payload exactly for the two whole-text paths. -/
def extract_text_content (pathFind : Option (Json → List Json))
    (path : String) (payload : String) : Option String :=
  match jsonParse payload with
  | some data =>
    match pathFind with
    | none => none
    | some find =>
      match find data with
      | [] => none
      | v :: _ => some (pyStr v)
  | none =>
    if path = "$.text" || path = "$" then some payload else none

/-- Observable events of one `_on_message` invocation and the async
handler it schedules. -/
inductive MsgEvent where
  | warnedNoText : MsgEvent
  | trigEval (result : Bool) : MsgEvent
  | generateCalled (text : String) : MsgEvent
  | warnedEmptyResponse : MsgEvent
  | pub (e : PubEvent) : MsgEvent
deriving DecidableEq

/-- `MQTTLLMBridge._handle_mqtt_message(message)`: the generation
backend is called with the extracted text; a non-empty response is
published, an empty one only logs a warning, and a raised backend error
is caught and published as an `"Error processing message: …"` response.
The model assumes the Ollama and MQTT client objects are initialized,
as they are after `start()`. -/
def handle_mqtt_message (generate : String → Except String String)
    (pubOk : Nat → Bool) (cfg : MQTTConfig) (nfkd : String → String)
    (connected : Bool) (message : String) : List MsgEvent :=
  MsgEvent.generateCalled message ::
    match generate message with
    | Except.ok resp =>
      if resp = "" then [MsgEvent.warnedEmptyResponse]
      else (publish_response pubOk cfg nfkd connected resp).map MsgEvent.pub
    | Except.error e =>
      (publish_response pubOk cfg nfkd connected
        ("Error processing message: " ++ e)).map MsgEvent.pub

/-- `MQTTClient._on_message` (with the bridge's async handler
installed): extraction, the Python truthiness test
`if extracted_text:` (failed extraction and the empty string take the
same warning branch), the trigger gate, and the handler hand-off.  The
model runs the scheduled handler inline; the cross-thread scheduling
itself is out of scope. -/
def on_message (pathFind : Option (Json → List Json))
    (search : String → String → Except Unit Bool)
    (generate : String → Except String String) (pubOk : Nat → Bool)
    (cfg : MQTTConfig) (nfkd : String → String) (connected : Bool)
    (payload : String) : List MsgEvent :=
  match extract_text_content pathFind cfg.subscribe_path payload with
  | some t =>
    if t = "" then [MsgEvent.warnedNoText]
    else
      MsgEvent.trigEval (should_trigger_ai search cfg.trigger_pattern t) ::
        (if should_trigger_ai search cfg.trigger_pattern t then
          handle_mqtt_message generate pubOk cfg nfkd connected t
        else [])
  | none => [MsgEvent.warnedNoText]

/-- A concrete instance of the `re.search` parameter: searching for a
literal (metacharacter-free) pattern as a substring, which is exactly
what `re.search` does for patterns such as the default `"@ai"`. -/
def demoSearch : String → String → Except Unit Bool :=
  fun p m => Except.ok (m.data.tails.any (fun t => p.data.isPrefixOf t))

/-- A concrete instance of the `jsonpath_ng` parameter: the meaning of
the default path `"$.text"` — the value of the top-level `text` member
of an object, and no match otherwise. -/
def demoFindText : Json → List Json :=
  fun j =>
    match j with
    | Json.obj fs => (fs.lookup "text").toList
    | _ => []

/-- A concrete generation backend that always answers. -/
def demoGen : String → Except String String :=
  fun _ => Except.ok "resp"

/-- The document `\x7b"text": "hello @ai"\x7d` as a decoded value. -/
def demoDoc : Json :=
  Json.obj [("text", Json.str "hello @ai")]

/-- Configuration with a dict-valued publish template containing the
placeholder token. -/
def cfgC1 : MQTTConfig :=
  { subscribe_path := "$.text", trigger_pattern := "@ai",
    publish_template := PublishTemplate.dict [("text", Json.str "\x7bresponse\x7d")],
    sanitize := false, message_max_length := none }

/-- Configuration with sanitization on and a string template whose only
replacement field is unknown, so `str.format` raises. -/
def cfgC2 : MQTTConfig :=
  { subscribe_path := "$.text", trigger_pattern := "@ai",
    publish_template := PublishTemplate.str "\x7boops\x7d",
    sanitize := true, message_max_length := none }

/-- Configuration with sanitization on and a chunk limit of 15. -/
def cfgC3 : MQTTConfig :=
  { subscribe_path := "$.text", trigger_pattern := "@ai",
    publish_template := PublishTemplate.str "\x7bresponse\x7d",
    sanitize := false, message_max_length := some 15 }

/-- Same as `cfgC3` but with sanitization enabled. -/
def cfgC3s : MQTTConfig :=
  { cfgC3 with sanitize := true }

/-- Default-template configuration with no chunk limit. -/
def cfgPlain : MQTTConfig :=
  { subscribe_path := "$.text", trigger_pattern := "@ai",
    publish_template := PublishTemplate.str "\x7bresponse\x7d",
    sanitize := false, message_max_length := none }

/-- Configuration whose `message_max_length` of 10 equals the prefix
reservation, leaving no chunk budget. -/
def cfgSmall : MQTTConfig :=
  { subscribe_path := "$.text", trigger_pattern := "@ai",
    publish_template := PublishTemplate.str "\x7bresponse\x7d",
    sanitize := false, message_max_length := some 10 }

/-- Twenty raw characters (`a`, eighteen spaces, `b`) whose sanitized
form `"a b"` has only three. -/
def respC3 : String := "a                  b"

end MqttLlm

namespace MqttLlm

theorem length_dropWhile_le (p : Char → Bool) (l : List Char) :
    (l.dropWhile p).length ≤ l.length := by
  induction l with
  | nil => simp [List.dropWhile]
  | cons a l ih =>
    by_cases h : p a
    · simp [List.dropWhile, h]; omega
    · simp [List.dropWhile, h]

theorem length_rstrip_le (l : List Char) : (rstrip l).length ≤ l.length := by
  have h := length_dropWhile_le pyIsSpace l.reverse
  simpa [rstrip] using h

theorem nonWS_append (a b : List Char) : nonWS (a ++ b) = nonWS a ++ nonWS b := by
  simp [nonWS, List.filter_append]

theorem nonWS_rstrip (l : List Char) : nonWS (rstrip l) = nonWS l := by
  have ht : nonWS (l.reverse.takeWhile pyIsSpace).reverse = [] := by
    simp only [nonWS, List.filter_eq_nil_iff]
    intro a ha
    have ha' : a ∈ l.reverse.takeWhile pyIsSpace := List.mem_reverse.1 ha
    simp [List.mem_takeWhile_imp ha']
  have key : rstrip l ++ (l.reverse.takeWhile pyIsSpace).reverse = l := by
    rw [rstrip, ← List.reverse_append, List.takeWhile_append_dropWhile,
      List.reverse_reverse]
  conv_rhs => rw [← key]
  rw [nonWS_append, ht, List.append_nil]

theorem pyStrip_nil_nonWS (l : List Char) (h : pyStrip l = []) : nonWS l = [] := by
  have h1 : ∀ x ∈ (l.dropWhile pyIsSpace), pyIsSpace x := by
    intro x hx
    have h2 : (l.dropWhile pyIsSpace).reverse.dropWhile pyIsSpace = [] := by
      have := congrArg List.reverse h
      simpa [pyStrip, rstrip] using this
    have := (List.dropWhile_eq_nil_iff).1 h2 x (by simpa using hx)
    exact this
  have h0 : ∀ x ∈ l, pyIsSpace x := by
    intro x hx
    rcases (by
      rw [← List.takeWhile_append_dropWhile (p := pyIsSpace) (l := l)] at hx
      exact List.mem_append.1 hx : x ∈ l.takeWhile pyIsSpace ∨ x ∈ l.dropWhile pyIsSpace) with h' | h'
    · exact List.mem_takeWhile_imp h'
    · exact h1 x h'
  simp only [nonWS, List.filter_eq_nil_iff]
  intro a ha
  simp [h0 a ha]

theorem breakScan_bounds {rem : List Char} {s : Nat} :
    ∀ {k bp : Nat}, breakScan rem s k = some bp → s + 1 ≤ bp ∧ bp ≤ s + k := by
  intro k
  induction k with
  | zero => intro bp h; simp [breakScan] at h
  | succ k ih =>
    intro bp h
    rw [breakScan] at h
    split at h
    · injection h with h1
      omega
    · have := ih h
      omega

theorem findBreak_le (rem : List Char) (cs : Nat) : findBreak rem cs ≤ cs := by
  have h5 : min (cs / 5) 50 ≤ cs := le_trans (min_le_left _ _) (Nat.div_le_self cs 5)
  simp only [findBreak]
  split
  · rename_i bp h
    have hb := breakScan_bounds h
    omega
  · exact Nat.le_refl cs

theorem findBreak_pos (rem : List Char) (cs : Nat) (hcs : 0 < cs) :
    0 < findBreak rem cs := by
  simp only [findBreak]
  split
  · rename_i bp h
    have hb := breakScan_bounds h
    omega
  · exact hcs

theorem chunkRec_spec (cs : Nat) (hcs : 0 < cs) :
    ∀ fuel rem, rem.length ≤ fuel →
      (∀ c ∈ chunkRec cs fuel rem, c.length ≤ cs) ∧
      nonWS (chunkRec cs fuel rem).flatten = nonWS rem := by
  intro fuel
  induction fuel with
  | zero =>
    intro rem hrem
    have : rem = [] := List.length_eq_zero.1 (Nat.le_zero.1 hrem)
    subst this
    simp [chunkRec, nonWS]
  | succ fuel ih =>
    intro rem hrem
    cases rem with
    | nil => simp [chunkRec, nonWS]
    | cons a l =>
      have hstep : chunkRec cs (fuel + 1) (a :: l) =
          if (a :: l).length ≤ cs then [a :: l]
          else rstrip ((a :: l).take (findBreak (a :: l) cs)) ::
            chunkRec cs fuel ((a :: l).drop (findBreak (a :: l) cs)) := rfl
      by_cases hle : (a :: l).length ≤ cs
      · rw [hstep, if_pos hle]
        constructor
        · intro c hc
          simp at hc
          subst hc
          exact hle
        · simp
      · rw [hstep, if_neg hle]
        have hbp1 : 0 < findBreak (a :: l) cs := findBreak_pos _ _ hcs
        have hbp2 : findBreak (a :: l) cs ≤ cs := findBreak_le _ _
        have hdrop : ((a :: l).drop (findBreak (a :: l) cs)).length ≤ fuel := by
          rw [List.length_drop]
          simp only [List.length_cons] at hrem ⊢
          omega
        have ihd := ih _ hdrop
        constructor
        · intro c hc
          simp only [List.mem_cons] at hc
          rcases hc with hc | hc
          · subst hc
            calc (rstrip ((a :: l).take (findBreak (a :: l) cs))).length
                ≤ ((a :: l).take (findBreak (a :: l) cs)).length := length_rstrip_le _
              _ ≤ findBreak (a :: l) cs := by
                  rw [List.length_take]
                  exact min_le_left _ _
              _ ≤ cs := hbp2
          · exact ihd.1 c hc
        · rw [List.flatten_cons, nonWS_append, nonWS_rstrip, ihd.2,
            ← nonWS_append, List.take_append_drop]

theorem nonWS_flatten_filter (L : List (List Char)) :
    nonWS (L.filter (fun c => !(pyStrip c).isEmpty)).flatten = nonWS L.flatten := by
  induction L with
  | nil => rfl
  | cons c L ih =>
    by_cases h : (pyStrip c).isEmpty
    · have hnil : pyStrip c = [] := by simpa [List.isEmpty_iff] using h
      have hz := pyStrip_nil_nonWS c hnil
      rw [List.filter_cons, if_neg (by simp [h]), ih, List.flatten_cons,
        nonWS_append, hz, List.nil_append]
    · rw [List.filter_cons, if_pos (by simp [Bool.not_eq_true] at h ⊢; simp [h]),
        List.flatten_cons, List.flatten_cons, nonWS_append, nonWS_append, ih]

theorem nonWS_flatten_map_rstrip (L : List (List Char)) :
    nonWS (L.map rstrip).flatten = nonWS L.flatten := by
  induction L with
  | nil => rfl
  | cons c L ih =>
    simp only [List.map_cons, List.flatten_cons]
    rw [nonWS_append, nonWS_append, nonWS_rstrip, ih]

/-- C4: for every text and every positive chunk budget, `_chunk_text`
returns only chunks of length at most the budget, and concatenating the
(right-trimmed) chunks reconstructs the text up to whitespace-run
differences — the sequence of non-whitespace characters is preserved
exactly. -/
theorem chunk_text_spec (t : List Char) (cs : Nat) (hcs : 0 < cs) :
    (∀ c ∈ chunk_text t cs, c.length ≤ cs) ∧
    nonWS ((chunk_text t cs).map rstrip).flatten = nonWS t := by
  unfold chunk_text
  by_cases h : t.length ≤ cs
  · rw [if_pos h]
    constructor
    · intro c hc
      simp at hc
      subst hc
      exact h
    · simp only [List.map_cons, List.map_nil, List.flatten_cons, List.flatten_nil,
        List.append_nil]
      exact nonWS_rstrip t
  · rw [if_neg h]
    have hspec := chunkRec_spec cs hcs t.length t (Nat.le_refl _)
    constructor
    · intro c hc
      exact hspec.1 c (List.mem_of_mem_filter hc)
    · rw [nonWS_flatten_map_rstrip, nonWS_flatten_filter, hspec.2]

/-- Witness for C4 at the text `"hello world"` with budget 5. -/
theorem chunk_text_spec_witness :
    0 < 5 ∧ ((∀ c ∈ chunk_text "hello world".data 5, c.length ≤ 5) ∧
      nonWS ((chunk_text "hello world".data 5).map rstrip).flatten =
        nonWS "hello world".data) :=
  ⟨by decide, chunk_text_spec "hello world".data 5 (by decide)⟩

/-- C7: when a `message_max_length` of at most the 10-character prefix
reservation is configured (so the chunk budget is not positive),
`_publish_chunked_response` refuses: it returns normally (no exception)
having published zero chunks and logged exactly one error. -/
theorem publish_chunked_response_refuses (pubOk : Nat → Bool) (cfg : MQTTConfig)
    (nfkd : String → String) (response : String) (m : Nat)
    (hm : cfg.message_max_length = some m) (h1 : 1 ≤ m) (h10 : m ≤ 10) :
    publish_chunked_response pubOk cfg nfkd response =
      Except.ok [PubEvent.logError] := by
  simp only [publish_chunked_response, hm]
  rw [if_neg (by omega), if_pos (by omega)]

/-- Witness for C7 at the boundary limit 10. -/
theorem publish_chunked_response_refuses_witness :
    cfgSmall.message_max_length = some 10 ∧ 1 ≤ 10 ∧ 10 ≤ 10 ∧
      publish_chunked_response (fun _ => true) cfgSmall (fun s => s)
        "0123456789abcdef" = Except.ok [PubEvent.logError] :=
  ⟨rfl, by decide, by decide,
    publish_chunked_response_refuses (fun _ => true) cfgSmall (fun s => s)
      "0123456789abcdef" 10 rfl (by decide) (by decide)⟩

/-- C6: `_should_trigger_ai` returns exactly the result of the regex
search when the search completes (true iff a match was found anywhere in
the text), and returns true when the pattern is invalid (`re.error`),
the fail-open policy. -/
theorem should_trigger_ai_spec (search : String → String → Except Unit Bool)
    (pattern message : String) :
    (∀ b, search pattern message = Except.ok b →
      should_trigger_ai search pattern message = b) ∧
    (search pattern message = Except.error () →
      should_trigger_ai search pattern message = true) := by
  constructor
  · intro b hb
    unfold should_trigger_ai
    rw [hb]
  · intro hb
    unfold should_trigger_ai
    rw [hb]

/-- Witness for C6: the literal pattern `"@ai"` found in
`"hello @ai"`. -/
theorem should_trigger_ai_spec_witness :
    demoSearch "@ai" "hello @ai" = Except.ok true ∧
      should_trigger_ai demoSearch "@ai" "hello @ai" = true :=
  ⟨rfl, (should_trigger_ai_spec demoSearch "@ai" "hello @ai").1 true rfl⟩

/-- C5: `_extract_text_content` returns the Python `str` of the first
path match when the payload decodes as JSON and the path matches,
`None` when it decodes but the path yields nothing (or the path
expression itself raises), the verbatim payload when the payload is not
JSON and the path is `"$.text"` or `"$"`, and `None` when it is not
JSON and the path is anything else; being total, it never raises. -/
theorem extract_text_content_spec (pathFind : Option (Json → List Json))
    (path payload : String) :
    (∀ d, jsonParse payload = some d →
      (∀ find, pathFind = some find →
        (∀ v vs, find d = v :: vs →
          extract_text_content pathFind path payload = some (pyStr v)) ∧
        (find d = [] → extract_text_content pathFind path payload = none)) ∧
      (pathFind = none → extract_text_content pathFind path payload = none)) ∧
    (jsonParse payload = none →
      ((path = "$.text" ∨ path = "$") →
        extract_text_content pathFind path payload = some payload) ∧
      (¬(path = "$.text" ∨ path = "$") →
        extract_text_content pathFind path payload = none)) := by
  constructor
  · intro d hd
    constructor
    · intro find hf
      constructor
      · intro v vs hv
        simp only [extract_text_content, hd, hf, hv]
      · intro hv
        simp only [extract_text_content, hd, hf, hv]
    · intro hf
      simp only [extract_text_content, hd, hf]
  · intro hd
    constructor
    · intro hp
      simp only [extract_text_content, hd]
      rcases hp with hp | hp <;> simp [hp]
    · intro hp
      push_neg at hp
      simp only [extract_text_content, hd]
      simp [hp.1, hp.2]

/-- Witness for C5: the spec's own example payload. -/
theorem extract_text_content_spec_witness :
    jsonParse "\x7b\"text\": \"hello @ai\"\x7d" = some demoDoc ∧
    demoFindText demoDoc = Json.str "hello @ai" :: [] ∧
    extract_text_content (some demoFindText) "$.text"
      "\x7b\"text\": \"hello @ai\"\x7d" = some (pyStr (Json.str "hello @ai")) :=
  ⟨rfl, rfl,
    (((extract_text_content_spec (some demoFindText) "$.text"
      "\x7b\"text\": \"hello @ai\"\x7d").1 demoDoc rfl).1 demoFindText rfl).1
      (Json.str "hello @ai") [] rfl⟩

/-- C1 (code bug): with the dict template `\x7b"text": "\x7bresponse\x7d"\x7d`
the claimed behaviour — serialize, then literally substitute
`\x7bresponse\x7d` — would produce `\x7b"text": "hi"\x7d`, but
`str.format` applied to the serialized JSON raises (the quoted key is
parsed as a replacement field), so `_format_response` hits its `except`
handler and returns the raw response `"hi"` instead. -/
theorem format_response_dict_template_raises :
    format_response_core cfgC1 (fun s => s) "hi" = Except.error () ∧
    format_response cfgC1 (fun s => s) "hi" = "hi" ∧
    pyReplace (jsonDumps (Json.obj [("text", Json.str "\x7bresponse\x7d")]))
      "\x7bresponse\x7d" "hi" = "\x7b\"text\": \"hi\"\x7d" ∧
    format_response cfgC1 (fun s => s) "hi" ≠ "\x7b\"text\": \"hi\"\x7d" :=
  ⟨rfl, rfl, rfl, by decide⟩

/-- C2 counterexample: with sanitization on, a response whose sanitized
form differs from the original, and a template that makes `str.format`
raise, `_format_response` returns the original `"**x**"`, not the
sanitized `"x"` the claim promises. -/
theorem format_response_not_sanitized_cex :
    format_response_core cfgC2 (fun s => s) "**x**" = Except.error () ∧
    sanitize_response (fun s => s) true "**x**" = "x" ∧
    format_response cfgC2 (fun s => s) "**x**" = "**x**" ∧
    ("**x**" : String) ≠ "x" :=
  ⟨rfl, rfl, rfl, by decide⟩

/-- C2 (amended): whenever formatting raises, `_format_response`
returns the original (pre-sanitization) response unmodified — the
exception never reaches the caller. -/
theorem format_response_error_returns_original (cfg : MQTTConfig)
    (nfkd : String → String) (response : String)
    (h : format_response_core cfg nfkd response = Except.error ()) :
    format_response cfg nfkd response = response := by
  unfold format_response
  rw [h]

/-- Witness for the amended C2 at a failing concrete template. -/
theorem format_response_error_returns_original_witness :
    format_response_core cfgC2 (fun s => s) "**markdown**" = Except.error () ∧
    format_response cfgC2 (fun s => s) "**markdown**" = "**markdown**" :=
  ⟨rfl, format_response_error_returns_original cfgC2 (fun s => s) "**markdown**" rfl⟩

/-- C3 counterexample: `respC3` is 20 raw characters but sanitizes to
`"a b"` (3 characters, below the limit 15), so under the claim the
Chunker would not run and a single templated sanitized response would
be published; the code instead compares the raw length, chunks the raw
text, and publishes two labelled chunks. -/
theorem publish_response_sanitize_order_cex :
    sanitize_response (fun s => s) true respC3 = "a b" ∧
    (sanitize_response (fun s => s) true respC3).length ≤ 15 ∧
    cfgC3s.message_max_length = some 15 ∧
    publish_response (fun _ => true) cfgC3s (fun s => s) true respC3 =
      [PubEvent.publishMsg "1/2: a", PubEvent.publishMsg "2/2: b"] ∧
    publish_response (fun _ => true) cfgC3s (fun s => s) true respC3 ≠
      [PubEvent.publishMsg (format_response cfgC3s (fun s => s)
        (sanitize_response (fun s => s) true respC3))] :=
  ⟨rfl, by decide, rfl, rfl, by decide⟩

/-- C3 (amended): the publish step compares the raw response's length
with the configured limit; when it exceeds the limit the Chunker runs
on the raw text and each chunk is labelled `"i/total: "` and then
templated (sanitization happens inside the Templater), otherwise the
templated response is published once. -/
theorem publish_response_raw_length (pubOk : Nat → Bool) (cfg : MQTTConfig)
    (nfkd : String → String) (response : String) (m : Nat)
    (hm : cfg.message_max_length = some m) (h10 : 10 < m) :
    (response.length > m →
      publish_response pubOk cfg nfkd true response =
        publish_chunks_loop pubOk cfg nfkd
          (chunk_text response.data (m - 10)).length 1
          (chunk_text response.data (m - 10))) ∧
    (response.length ≤ m →
      publish_response pubOk cfg nfkd true response =
        PubEvent.publishMsg (format_response cfg nfkd response) ::
          (if pubOk 1 then [] else [PubEvent.logError])) := by
  constructor
  · intro hlen
    simp only [publish_response, publish_chunked_response, hm, Bool.not_true,
      Bool.false_eq_true, if_false]
    rw [if_pos (by simp; omega)]
    rw [if_neg (by omega), if_neg (by omega)]
  · intro hlen
    simp only [publish_response, hm, Bool.not_true, Bool.false_eq_true, if_false]
    rw [if_neg (by simp; omega)]

/-- Witness for the amended C3: the 20-character `respC3` against the
limit 15 goes down the chunked path on the raw text. -/
theorem publish_response_raw_length_witness :
    cfgC3.message_max_length = some 15 ∧ 10 < 15 ∧ respC3.length > 15 ∧
    publish_response (fun _ => true) cfgC3 (fun s => s) true respC3 =
      publish_chunks_loop (fun _ => true) cfgC3 (fun s => s)
        (chunk_text respC3.data (15 - 10)).length 1
        (chunk_text respC3.data (15 - 10)) :=
  ⟨rfl, by decide, by decide,
    (publish_response_raw_length (fun _ => true) cfgC3 (fun s => s) respC3 15
      rfl (by decide)).1 (by decide)⟩

/-- Helper: the events mapped from the publish side are never
generation calls. -/
theorem generateCalled_not_mem_map_pub (s : String) (l : List PubEvent) :
    MsgEvent.generateCalled s ∉ l.map MsgEvent.pub := by
  intro h
  rcases List.mem_map.1 h with ⟨e, _, he⟩
  cases he

/-- C8: the trigger evaluator runs on the extracted text before any
backend call: when it returns false `_on_message` stops right after the
evaluation — no generation call, no publish — and any generation call
that does appear in a trace was made with the trigger-approved text. -/
theorem on_message_trigger_gate (pathFind : Option (Json → List Json))
    (search : String → String → Except Unit Bool)
    (generate : String → Except String String) (pubOk : Nat → Bool)
    (cfg : MQTTConfig) (nfkd : String → String) (connected : Bool)
    (payload t : String)
    (hx : extract_text_content pathFind cfg.subscribe_path payload = some t)
    (ht : t ≠ "") :
    (should_trigger_ai search cfg.trigger_pattern t = false →
      on_message pathFind search generate pubOk cfg nfkd connected payload =
        [MsgEvent.trigEval false]) ∧
    (∀ s, MsgEvent.generateCalled s ∈
        on_message pathFind search generate pubOk cfg nfkd connected payload →
      should_trigger_ai search cfg.trigger_pattern t = true ∧ s = t) := by
  constructor
  · intro hf
    simp only [on_message, hx, if_neg ht, hf]
    simp
  · intro s hs
    simp only [on_message, hx, if_neg ht] at hs
    cases htr : should_trigger_ai search cfg.trigger_pattern t with
    | false =>
      rw [htr] at hs
      simp at hs
    | true =>
      rw [htr] at hs
      simp only [if_true, List.mem_cons] at hs
      rcases hs with hs | hs
      · cases hs
      · refine ⟨rfl, ?_⟩
        simp only [handle_mqtt_message, List.mem_cons] at hs
        rcases hs with hs | hs
        · cases hs
          rfl
        · exfalso
          rcases hgen : generate t with e | resp
          · simp only [hgen] at hs
            exact generateCalled_not_mem_map_pub s _ hs
          · simp only [hgen] at hs
            by_cases hr : resp = ""
            · rw [if_pos hr] at hs
              simp at hs
            · rw [if_neg hr] at hs
              exact generateCalled_not_mem_map_pub s _ hs

/-- Witness for C8: a plain-text payload that does not contain the
trigger pattern stops the pipeline at the trigger evaluation. -/
theorem on_message_trigger_gate_witness :
    extract_text_content (some demoFindText) cfgPlain.subscribe_path "hello" =
      some "hello" ∧
    ("hello" : String) ≠ "" ∧
    should_trigger_ai demoSearch cfgPlain.trigger_pattern "hello" = false ∧
    on_message (some demoFindText) demoSearch demoGen (fun _ => true) cfgPlain
      (fun s => s) true "hello" = [MsgEvent.trigEval false] :=
  ⟨rfl, by decide, rfl,
    (on_message_trigger_gate (some demoFindText) demoSearch demoGen
      (fun _ => true) cfgPlain (fun s => s) true "hello" "hello" rfl
      (by decide)).1 rfl⟩

/-- C9: the spec's sanitizer example.  The NFKD normalization is a
model parameter; the hypothesis pins it down at the one (pure-ASCII)
string it is applied to, where `unicodedata.normalize` is the
identity. -/
theorem sanitize_response_example (nfkd : String → String)
    (h : nfkd "bold html " = "bold html ") :
    sanitize_response nfkd true "**bold** <b>html</b> 😀" = "bold html" := by
  show sanitize_post (nfkd (sanitize_pre "**bold** <b>html</b> 😀")) = "bold html"
  rw [show sanitize_pre "**bold** <b>html</b> 😀" = "bold html " from rfl, h]
  decide

/-- Witness for C9 with the identity as the NFKD parameter. -/
theorem sanitize_response_example_witness :
    (fun s => s : String → String) "bold html " = "bold html " ∧
    sanitize_response (fun s => s) true "**bold** <b>html</b> 😀" = "bold html" :=
  ⟨rfl, sanitize_response_example (fun s => s) rfl⟩

/-- C10: an extraction that yields the empty string takes the same
branch as a failed extraction (`if extracted_text:` is false for both):
the trace is exactly the no-text warning — no trigger evaluation, no
generation call, no publish. -/
theorem on_message_empty_extraction (pathFind : Option (Json → List Json))
    (search : String → String → Except Unit Bool)
    (generate : String → Except String String) (pubOk : Nat → Bool)
    (cfg : MQTTConfig) (nfkd : String → String) (connected : Bool)
    (payload : String)
    (hx : extract_text_content pathFind cfg.subscribe_path payload = some "") :
    on_message pathFind search generate pubOk cfg nfkd connected payload =
      [MsgEvent.warnedNoText] := by
  simp [on_message, hx]

/-- Witness for C10: the empty plain-text payload with the default
path extracts as the empty string. -/
theorem on_message_empty_extraction_witness :
    extract_text_content (some demoFindText) cfgPlain.subscribe_path "" =
      some "" ∧
    on_message (some demoFindText) demoSearch demoGen (fun _ => true) cfgPlain
      (fun s => s) true "" = [MsgEvent.warnedNoText] :=
  ⟨rfl,
    on_message_empty_extraction (some demoFindText) demoSearch demoGen
      (fun _ => true) cfgPlain (fun s => s) true "" rfl⟩

end MqttLlm
